import Mathlib

/-!
Verification of the task-store core of the `x-todo` repository
(`src/main.rs`), shallowly embedded in Lean 4.

Modelling choices, all taken from the source:

* `io::Error` values are modelled by their kind (`Err`): the source uses
  `ErrorKind::InvalidInput` for the validation failure ("Description cannot
  be empty"), `ErrorKind::NotFound` for the missing-task failure
  ("Task not found"), and any read/write/serde failure plays the role of
  the spec's `StorageError` (`Err.storageFail`).
* `HashMap<usize, Task>` is modelled as an association list
  `List (Nat × Task)`; `insert` replaces an existing binding in place and
  otherwise appends, `remove` deletes the binding, `get`/`get_mut` are
  first-binding lookup.  Iteration order of a `HashMap` is arbitrary; every
  order-sensitive statement proved below goes through `list_tasks`, which
  sorts, or through per-key lookup, so fixing the list order loses nothing.
* `FileStorage` writes `serde_json::to_string(tasks)` to a file and reads
  it back with `serde_json::from_str`.  The file is modelled at the JSON
  value level (`Json`): `save` produces the JSON document serde would
  print (a JSON object keyed by the decimal rendering of each `usize` key,
  each task an object with fields `id`, `description`, `completed` in
  declaration order, the `TaskId`/`TaskDescription` newtypes serialised
  transparently as their inner value), and `load` deserialises such a
  document, failing on any structurally incompatible value.  The textual
  printing/parsing between a JSON document and bytes is serde_json's and is
  not re-verified here.
* The outcome of the underlying file write is not determined by the store's
  state, so every mutating operation takes an explicit `saveOk : Bool`
  telling whether the `self.save()` call succeeds; `false` makes `save`
  return the I/O error exactly where `?` propagates it in the source.
-/

namespace Todo

/-- Error kinds of the `io::Error` values produced by the source:
`invalidInput` is the validation error, `notFound` the missing-task error,
`storageFail` any persistence (read/write/serde) failure. -/
inductive Err where
  | invalidInput
  | notFound
  | storageFail
deriving DecidableEq, Repr

/-- Newtype `TaskId(usize)` from the source. -/
structure TaskId where
  val : Nat
deriving DecidableEq, Repr

/-- Newtype `TaskDescription(String)` from the source. -/
structure TaskDescription where
  val : String
deriving DecidableEq, Repr

/-- `struct Task { id, description, completed }` from the source. -/
structure Task where
  id : TaskId
  description : TaskDescription
  completed : Bool
deriving DecidableEq, Repr

/-- The in-memory `HashMap<usize, Task>`, as an association list. -/
abbrev TaskMap := List (Nat × Task)

/-- Rust's `char::is_whitespace`: the Unicode `White_Space` property,
true exactly for U+0009..U+000D, U+0020, U+0085, U+00A0, U+1680,
U+2000..U+200A, U+2028, U+2029, U+202F, U+205F and U+3000. -/
def rustIsWhitespace (c : Char) : Bool :=
  (0x9 ≤ c.toNat && c.toNat ≤ 0xD) || (c.toNat == 0x20) ||
  (c.toNat == 0x85) || (c.toNat == 0xA0) || (c.toNat == 0x1680) ||
  (0x2000 ≤ c.toNat && c.toNat ≤ 0x200A) || (c.toNat == 0x2028) ||
  (c.toNat == 0x2029) || (c.toNat == 0x202F) || (c.toNat == 0x205F) ||
  (c.toNat == 0x3000)

/-- Rust's `str::trim`: the string with leading and trailing
`White_Space` characters removed. -/
def rustTrim (s : String) : String :=
  ⟨((s.data.dropWhile rustIsWhitespace).reverse.dropWhile rustIsWhitespace).reverse⟩

/-- `TaskDescription::new`: rejects a description whose trim is empty with
an `InvalidInput` error, otherwise wraps the original string unchanged. -/
def TaskDescription.new (description : String) : Except Err TaskDescription :=
  if (rustTrim description).data.isEmpty then
    .error .invalidInput
  else
    .ok ⟨description⟩

/-- `HashMap::insert k t`: replace the binding of `k` if present, else add
the new binding. -/
def insertTask (m : TaskMap) (k : Nat) (t : Task) : TaskMap :=
  if (List.lookup k m).isSome then
    m.map (fun p => if p.1 = k then (k, t) else p)
  else
    m ++ [(k, t)]

/-- The in-place mutation done by `complete_task` through `get_mut`:
set the `completed` flag of the binding of `k` to `true`. -/
def markCompleted (m : TaskMap) (k : Nat) : TaskMap :=
  m.map (fun p => if p.1 = k then (p.1, { p.2 with completed := true }) else p)

/-- `HashMap::remove k` (the source only uses whether it was present). -/
def removeTask (m : TaskMap) (k : Nat) : TaskMap :=
  m.eraseP (fun p => p.1 == k)

/-- JSON documents, at the value level (what `serde_json::to_string`
prints and `serde_json::from_str` parses). -/
inductive Json where
  | null
  | bool (b : Bool)
  | num (n : Nat)
  | str (s : String)
  | arr (elems : List Json)
  | obj (fields : List (String × Json))

/-- Decimal digit to its character (codepoint 48 + digit), as serde_json
prints map keys. -/
def digitToChar (d : Nat) : Char :=
  Char.ofNat (48 + d)

/-- Inverse of `digitToChar`: a decimal digit character back to its value,
`none` on a non-digit. -/
def charToDigit (c : Char) : Option Nat :=
  if 48 ≤ c.toNat ∧ c.toNat ≤ 57 then some (c.toNat - 48) else none

/-- Decimal rendering of a `usize`, most significant digit first, as
serde_json renders the integer keys of a `HashMap<usize, _>`. -/
def natToString (n : Nat) : String :=
  if n = 0 then "0" else ⟨((Nat.digits 10 n).map digitToChar).reverse⟩

/-- Parse every character of a list as a decimal digit. -/
def charsToDigits : List Char → Option (List Nat)
  | [] => some []
  | c :: cs => do
    let d ← charToDigit c
    let ds ← charsToDigits cs
    pure (d :: ds)

/-- Parse a decimal string back to a `usize`, as serde_json parses the
string keys of a map keyed by integers; `none` if empty or non-numeric. -/
def stringToNat (s : String) : Option Nat :=
  if s.data.isEmpty then
    none
  else do
    let ds ← charsToDigits s.data
    pure (Nat.ofDigits 10 ds.reverse)

/-- Serialisation of one `Task` by the derived `Serialize` impl: an object
with the struct's fields in declaration order, newtypes transparent. -/
def taskToJson (t : Task) : Json :=
  .obj [("id", .num t.id.val), ("description", .str t.description.val),
        ("completed", .bool t.completed)]

/-- Deserialisation of one `Task` by the derived `Deserialize` impl,
modelled on the canonical document shape the serialiser itself produces;
any other shape is a deserialisation failure. -/
def jsonToTask : Json → Option Task
  | .obj [("id", .num i), ("description", .str d), ("completed", .bool c)] =>
    some ⟨⟨i⟩, ⟨d⟩, c⟩
  | _ => none

/-- Serialisation of the whole `HashMap<usize, Task>`: a JSON object whose
field names are the decimal keys. -/
def tasksToJson (m : TaskMap) : Json :=
  .obj (m.map fun p => (natToString p.1, taskToJson p.2))

/-- Deserialise the fields of the map object one binding at a time. -/
def entriesToTasks : List (String × Json) → Option TaskMap
  | [] => some []
  | (s, j) :: rest => do
    let k ← stringToNat s
    let t ← jsonToTask j
    let m ← entriesToTasks rest
    pure ((k, t) :: m)

/-- Deserialisation of the whole collection; anything but an object of
well-formed bindings is a deserialisation failure. -/
def jsonToTasks : Json → Option TaskMap
  | .obj fields => entriesToTasks fields
  | _ => none

/-- What `fs::read_to_string` reports for the storage location: the file's
(JSON-level) content, absence (`ErrorKind::NotFound`), or any other I/O
failure. -/
inductive FsRead where
  | content (j : Json)
  | notFound
  | ioError

/-- `FileStorage::save`: the JSON document written for the collection. -/
def FileStorage.save (m : TaskMap) : Json :=
  tasksToJson m

/-- `FileStorage::load`: distinguishes a missing file (empty collection)
from any other read failure, and fails when deserialisation fails. -/
def FileStorage.load : FsRead → Except Err TaskMap
  | .content j =>
    match jsonToTasks j with
    | some m => .ok m
    | none => .error .storageFail
  | .notFound => .ok []
  | .ioError => .error .storageFail

/-- `struct TodoList`.  The boxed `Storage` backend is the `FileStorage`
modelled above; `stored` is the current content of its storage location
(`none` when the file does not exist). -/
structure TodoList where
  tasks : TaskMap
  next_id : Nat
  stored : Option Json

/-- `TodoList::new`: load the collection (propagating the load error) and
derive the next id as `max key + 1`, or `1` for an empty collection. -/
def TodoList.new (r : FsRead) : Except Err TodoList :=
  match FileStorage.load r with
  | .error e => .error e
  | .ok tasks =>
    .ok { tasks
          next_id :=
            match (tasks.map Prod.fst).max? with
            | none => 1
            | some m => m + 1
          stored :=
            match r with
            | .content j => some j
            | _ => none }

/-- `TodoList::save`: write the serialised collection to the storage
location; `saveOk` is whether the underlying file write succeeds. -/
def TodoList.save (s : TodoList) (saveOk : Bool) : TodoList × Except Err Unit :=
  if saveOk then
    ({ s with stored := some (FileStorage.save s.tasks) }, .ok ())
  else
    (s, .error .storageFail)

/-- `TodoList::add_task`: validate, insert the new task under the current
`next_id`, increment `next_id`, then save; `?` propagates a save failure
after the in-memory mutation has happened. -/
def TodoList.add_task (s : TodoList) (description : String) (saveOk : Bool) :
    TodoList × Except Err Nat :=
  match TaskDescription.new description with
  | .error e => (s, .error e)
  | .ok desc =>
    let id : TaskId := ⟨s.next_id⟩
    let task : Task := { id := id, description := desc, completed := false }
    let s1 : TodoList :=
      { s with tasks := insertTask s.tasks s.next_id task, next_id := s.next_id + 1 }
    match TodoList.save s1 saveOk with
    | (s2, .ok _) => (s2, .ok id.val)
    | (s2, .error e) => (s2, .error e)

/-- `TodoList::complete_task`: `NotFound` when the id is absent, otherwise
set `completed := true` through `get_mut` and save. -/
def TodoList.complete_task (s : TodoList) (id : Nat) (saveOk : Bool) :
    TodoList × Except Err Unit :=
  match List.lookup id s.tasks with
  | some _ =>
    TodoList.save { s with tasks := markCompleted s.tasks id } saveOk
  | none => (s, .error .notFound)

/-- `TodoList::list_tasks`: collect the values and sort them by id. -/
def TodoList.list_tasks (s : TodoList) : List Task :=
  List.mergeSort (s.tasks.map Prod.snd) (fun a b => a.id.val ≤ b.id.val)

/-- `TodoList::delete_task`: `NotFound` when the id is absent, otherwise
remove the binding and save. -/
def TodoList.delete_task (s : TodoList) (id : Nat) (saveOk : Bool) :
    TodoList × Except Err Unit :=
  if (List.lookup id s.tasks).isSome then
    TodoList.save { s with tasks := removeTask s.tasks id } saveOk
  else
    (s, .error .notFound)

/-- A store operation invoked through the `TaskManager` trait. -/
inductive Op where
  | add (description : String)
  | complete (id : Nat)
  | delete (id : Nat)
  | list
deriving DecidableEq, Repr

/-- The observable outcome of one operation. -/
inductive OpResult where
  | addedId (id : Nat)
  | done
  | listing (ts : List Task)
  | failed (e : Err)
deriving DecidableEq, Repr

/-- Run one operation; the `Bool` is the outcome of the underlying file
write should the operation reach its save step. -/
def runOp (s : TodoList) : Op × Bool → TodoList × OpResult
  | (.add d, b) =>
    match s.add_task d b with
    | (s1, .ok i) => (s1, .addedId i)
    | (s1, .error e) => (s1, .failed e)
  | (.complete k, b) =>
    match s.complete_task k b with
    | (s1, .ok _) => (s1, .done)
    | (s1, .error e) => (s1, .failed e)
  | (.delete k, b) =>
    match s.delete_task k b with
    | (s1, .ok _) => (s1, .done)
    | (s1, .error e) => (s1, .failed e)
  | (.list, _) => (s, .listing s.list_tasks)

/-- Run a sequence of operations, collecting each outcome. -/
def runOps (s : TodoList) : List (Op × Bool) → TodoList × List OpResult
  | [] => (s, [])
  | ob :: rest =>
    ((runOps (runOp s ob).1 rest).1,
     (runOp s ob).2 :: (runOps (runOp s ob).1 rest).2)

/-- The ids returned by the successful `add` calls of a run, in order. -/
def addedIds : List OpResult → List Nat
  | [] => []
  | .addedId i :: rest => i :: addedIds rest
  | .done :: rest => addedIds rest
  | .listing _ :: rest => addedIds rest
  | .failed _ :: rest => addedIds rest

/-- Structural invariant of the store: every binding's key is the id
recorded inside its task, and every key is below the next-id counter. -/
def TasksInv (s : TodoList) : Prop :=
  ∀ p ∈ s.tasks, p.2.id.val = p.1 ∧ p.1 < s.next_id

instance : DecidablePred TasksInv := fun s =>
  List.decidableBAll _ s.tasks

/-- Keys of the collection are pairwise distinct (always true of the
source's `HashMap`). -/
def NodupKeys (m : TaskMap) : Prop :=
  (m.map Prod.fst).Nodup

instance : DecidablePred NodupKeys := fun m =>
  List.nodupDecidable (m.map Prod.fst)

/-! ### Helper lemmas about the association-list model of `HashMap` -/

theorem lookup_some_mem {m : TaskMap} {j : Nat} {t : Task}
    (h : List.lookup j m = some t) : (j, t) ∈ m := by
  induction m with
  | nil => simp at h
  | cons p m ih =>
    obtain ⟨a, v⟩ := p
    rw [List.lookup_cons] at h
    by_cases hj : j = a
    · subst hj
      simp at h
      simp [h]
    · simp [beq_eq_false_iff_ne.mpr hj] at h
      exact List.mem_cons_of_mem _ (ih h)

theorem lookup_eq_none_of_not_mem_keys {m : TaskMap} {j : Nat}
    (h : j ∉ m.map Prod.fst) : List.lookup j m = none := by
  induction m with
  | nil => rfl
  | cons p m ih =>
    obtain ⟨a, v⟩ := p
    simp only [List.map_cons, List.mem_cons, not_or] at h
    rw [List.lookup_cons, beq_eq_false_iff_ne.mpr h.1]
    exact ih h.2

theorem lookup_map_replace_self (m : TaskMap) (k : Nat) (t : Task)
    (hk : (List.lookup k m).isSome = true) :
    List.lookup k (m.map (fun p => if p.1 = k then (k, t) else p)) = some t := by
  induction m with
  | nil => simp at hk
  | cons p m ih =>
    obtain ⟨a, v⟩ := p
    by_cases ha : a = k
    · simp [List.map_cons, ha]
    · have hne : (k == a) = false := beq_eq_false_iff_ne.mpr (Ne.symm ha)
      rw [List.lookup_cons, hne] at hk
      simp only [List.map_cons, if_neg ha]
      rw [List.lookup_cons, hne]
      exact ih hk

theorem lookup_append_single_self (m : TaskMap) (k : Nat) (t : Task)
    (h : List.lookup k m = none) :
    List.lookup k (m ++ [(k, t)]) = some t := by
  rw [List.lookup_append, h]
  simp

theorem lookup_insertTask_self (m : TaskMap) (k : Nat) (t : Task) :
    List.lookup k (insertTask m k t) = some t := by
  unfold insertTask
  rcases ho : List.lookup k m with _ | v
  · rw [if_neg (by simp [ho])]
    exact lookup_append_single_self m k t ho
  · rw [if_pos (by simp [ho])]
    exact lookup_map_replace_self m k t (by simp [ho])

theorem lookup_map_replace_ne (m : TaskMap) (k j : Nat) (t : Task) (hj : j ≠ k) :
    List.lookup j (m.map (fun p => if p.1 = k then (k, t) else p)) =
      List.lookup j m := by
  induction m with
  | nil => rfl
  | cons p m ih =>
    obtain ⟨a, v⟩ := p
    by_cases ha : a = k
    · subst ha
      simp [List.lookup_cons, beq_eq_false_iff_ne.mpr hj, ih]
    · by_cases hja : j = a
      · simp [if_neg ha, List.lookup_cons, hja]
      · simp [if_neg ha, List.lookup_cons, beq_eq_false_iff_ne.mpr hja, ih]

theorem lookup_insertTask_ne (m : TaskMap) (k j : Nat) (t : Task) (hj : j ≠ k) :
    List.lookup j (insertTask m k t) = List.lookup j m := by
  unfold insertTask
  split
  · exact lookup_map_replace_ne m k j t hj
  · rw [List.lookup_append]
    have h1 : List.lookup j [(k, t)] = none := by
      rw [List.lookup_cons, beq_eq_false_iff_ne.mpr hj]
      rfl
    rw [h1]
    cases List.lookup j m <;> rfl

theorem lookup_markCompleted (m : TaskMap) (k j : Nat) :
    List.lookup j (markCompleted m k) =
      (List.lookup j m).map
        (fun t => if j = k then { t with completed := true } else t) := by
  induction m with
  | nil => rfl
  | cons p m ih =>
    obtain ⟨a, v⟩ := p
    unfold markCompleted at ih ⊢
    by_cases hja : j = a
    · subst hja
      by_cases hk : j = k
      · subst hk
        simp [List.map_cons]
      · simp [List.map_cons, if_neg (fun h : j = k => hk h), hk]
    · have hne : (j == a) = false := beq_eq_false_iff_ne.mpr hja
      by_cases hk : a = k
      · simp [List.map_cons, if_pos hk, List.lookup_cons, hne, ih]
      · simp [List.map_cons, if_neg hk, List.lookup_cons, hne, ih]

theorem lookup_removeTask_some {m : TaskMap} {k j : Nat} {t : Task}
    (hnd : NodupKeys m) (h : List.lookup j (removeTask m k) = some t) :
    List.lookup j m = some t := by
  induction m with
  | nil => simp [removeTask] at h
  | cons p m ih =>
    obtain ⟨a, v⟩ := p
    unfold removeTask at h ih
    unfold NodupKeys at hnd ih
    simp only [List.map_cons, List.nodup_cons] at hnd
    simp only [List.eraseP_cons] at h
    by_cases ha : a = k
    · simp only [ha, beq_self_eq_true, cond_true] at h
      by_cases hja : j = a
      · subst hja
        rw [lookup_eq_none_of_not_mem_keys hnd.1] at h
        cases h
      · rw [List.lookup_cons, beq_eq_false_iff_ne.mpr hja]
        exact h
    · simp only [beq_eq_false_iff_ne.mpr ha, cond_false] at h
      rw [List.lookup_cons] at h ⊢
      by_cases hja : j = a
      · simpa [hja] using h
      · rw [beq_eq_false_iff_ne.mpr hja] at h ⊢
        exact ih hnd.2 h

theorem mem_insertTask {m : TaskMap} {k : Nat} {t : Task} {p : Nat × Task}
    (h : p ∈ insertTask m k t) : p ∈ m ∨ p = (k, t) := by
  unfold insertTask at h
  split at h
  · rcases List.mem_map.mp h with ⟨q, hq, hq2⟩
    by_cases hk : q.1 = k
    · right
      simp [hk] at hq2
      exact hq2.symm
    · left
      simp [hk] at hq2
      exact hq2 ▸ hq
  · rcases List.mem_append.mp h with h | h
    · exact Or.inl h
    · right
      simpa using h

theorem mem_markCompleted {m : TaskMap} {k : Nat} {p : Nat × Task}
    (h : p ∈ markCompleted m k) :
    ∃ q ∈ m, p.1 = q.1 ∧ p.2.id = q.2.id := by
  unfold markCompleted at h
  rcases List.mem_map.mp h with ⟨q, hq, hq2⟩
  refine ⟨q, hq, ?_⟩
  by_cases hk : q.1 = k
  · simp [hk] at hq2
    simp [← hq2, hk]
  · simp [hk] at hq2
    simp [← hq2]

theorem mem_removeTask {m : TaskMap} {k : Nat} {p : Nat × Task}
    (h : p ∈ removeTask m k) : p ∈ m :=
  List.mem_of_mem_eraseP h

/-! ### Helper lemmas about `TodoList.save` -/

theorem save_fst_tasks (s : TodoList) (b : Bool) :
    (TodoList.save s b).1.tasks = s.tasks := by
  cases b <;> rfl

theorem save_fst_next_id (s : TodoList) (b : Bool) :
    (TodoList.save s b).1.next_id = s.next_id := by
  cases b <;> rfl

theorem save_false (s : TodoList) :
    TodoList.save s false = (s, .error .storageFail) := rfl

theorem save_true (s : TodoList) :
    TodoList.save s true =
      ({ s with stored := some (FileStorage.save s.tasks) }, .ok ()) := rfl

/-! ### Round-trip of the serialised representation -/

theorem charToDigit_digitToChar {d : Nat} (h : d < 10) :
    charToDigit (digitToChar d) = some d := by
  interval_cases d <;> rfl

theorem charsToDigits_map_digitToChar (l : List Nat) (h : ∀ d ∈ l, d < 10) :
    charsToDigits (l.map digitToChar) = some l := by
  induction l with
  | nil => rfl
  | cons d l ih =>
    rw [List.map_cons, charsToDigits,
      charToDigit_digitToChar (h d (List.mem_cons_self d l)),
      ih (fun x hx => h x (List.mem_cons_of_mem d hx))]
    rfl

theorem stringToNat_natToString (n : Nat) :
    stringToNat (natToString n) = some n := by
  by_cases h0 : n = 0
  · subst h0
    rfl
  · unfold natToString stringToNat
    rw [if_neg h0]
    have hne : ((Nat.digits 10 n).map digitToChar).reverse ≠ [] := by
      simp [Nat.digits_ne_nil_iff_ne_zero.mpr h0]
    have hdata :
        (String.mk ((Nat.digits 10 n).map digitToChar).reverse).data =
          ((Nat.digits 10 n).map digitToChar).reverse := rfl
    rw [if_neg (by simp [hdata, hne])]
    rw [hdata, ← List.map_reverse]
    rw [charsToDigits_map_digitToChar _
      (fun d hd => Nat.digits_lt_base (by norm_num) (List.mem_reverse.mp hd))]
    simp [Nat.ofDigits_digits]

theorem jsonToTask_taskToJson (t : Task) :
    jsonToTask (taskToJson t) = some t := rfl

theorem entriesToTasks_tasksToJson (m : TaskMap) :
    entriesToTasks (m.map fun p => (natToString p.1, taskToJson p.2)) =
      some m := by
  induction m with
  | nil => rfl
  | cons p m ih =>
    rw [List.map_cons, entriesToTasks, stringToNat_natToString,
      jsonToTask_taskToJson, ih]
    rfl

/-! ### Characterisation of the four operations -/

theorem add_task_invalid (s : TodoList) (d : String) (b : Bool)
    (h : (rustTrim d).data.isEmpty = true) :
    s.add_task d b = (s, .error .invalidInput) := by
  unfold TodoList.add_task TaskDescription.new
  rw [if_pos h]

theorem add_task_valid_true (s : TodoList) (d : String)
    (h : (rustTrim d).data.isEmpty = false) :
    s.add_task d true =
      ({ tasks := insertTask s.tasks s.next_id ⟨⟨s.next_id⟩, ⟨d⟩, false⟩,
         next_id := s.next_id + 1,
         stored := some (FileStorage.save
           (insertTask s.tasks s.next_id ⟨⟨s.next_id⟩, ⟨d⟩, false⟩)) },
       .ok s.next_id) := by
  unfold TodoList.add_task TaskDescription.new
  rw [if_neg (by simp [h])]
  rfl

theorem add_task_valid_false (s : TodoList) (d : String)
    (h : (rustTrim d).data.isEmpty = false) :
    s.add_task d false =
      ({ s with
          tasks := insertTask s.tasks s.next_id ⟨⟨s.next_id⟩, ⟨d⟩, false⟩,
          next_id := s.next_id + 1 },
       .error .storageFail) := by
  unfold TodoList.add_task TaskDescription.new
  rw [if_neg (by simp [h])]
  rfl

theorem complete_task_present (s : TodoList) (k : Nat) (t : Task) (b : Bool)
    (h : List.lookup k s.tasks = some t) :
    s.complete_task k b =
      TodoList.save { s with tasks := markCompleted s.tasks k } b := by
  unfold TodoList.complete_task
  rw [h]

theorem complete_task_absent (s : TodoList) (k : Nat) (b : Bool)
    (h : List.lookup k s.tasks = none) :
    s.complete_task k b = (s, .error .notFound) := by
  unfold TodoList.complete_task
  rw [h]

theorem delete_task_present (s : TodoList) (k : Nat) (b : Bool)
    (h : (List.lookup k s.tasks).isSome = true) :
    s.delete_task k b =
      TodoList.save { s with tasks := removeTask s.tasks k } b := by
  unfold TodoList.delete_task
  rw [if_pos h]

theorem delete_task_absent (s : TodoList) (k : Nat) (b : Bool)
    (h : List.lookup k s.tasks = none) :
    s.delete_task k b = (s, .error .notFound) := by
  unfold TodoList.delete_task
  rw [if_neg (by simp [h])]

/-! ### Trace lemmas -/

theorem next_id_le_runOp (s : TodoList) (ob : Op × Bool) :
    s.next_id ≤ (runOp s ob).1.next_id := by
  obtain ⟨op, b⟩ := ob
  cases op with
  | add d =>
    cases hv : (rustTrim d).data.isEmpty with
    | true => simp [runOp, add_task_invalid s d b hv]
    | false =>
      cases b with
      | true => simp [runOp, add_task_valid_true s d hv]
      | false => simp [runOp, add_task_valid_false s d hv]
  | complete k =>
    rcases hl : List.lookup k s.tasks with _ | t
    · simp [runOp, complete_task_absent s k b hl]
    · cases b with
      | true => simp [runOp, complete_task_present s k t true hl, TodoList.save]
      | false => simp [runOp, complete_task_present s k t false hl, TodoList.save]
  | delete k =>
    rcases hl : List.lookup k s.tasks with _ | t
    · simp [runOp, delete_task_absent s k b hl]
    · cases b with
      | true => simp [runOp, delete_task_present s k true (by simp [hl]), TodoList.save]
      | false => simp [runOp, delete_task_present s k false (by simp [hl]), TodoList.save]
  | list => simp [runOp]

theorem next_id_le_runOps (s : TodoList) (l : List (Op × Bool)) :
    s.next_id ≤ (runOps s l).1.next_id := by
  induction l generalizing s with
  | nil => exact le_refl _
  | cons ob l ih => exact le_trans (next_id_le_runOp s ob) (ih (runOp s ob).1)

theorem runOp_addedId {s : TodoList} {op : Op} {b : Bool} {i : Nat}
    (h : (runOp s (op, b)).2 = .addedId i) :
    i = s.next_id ∧ (runOp s (op, b)).1.next_id = s.next_id + 1 := by
  cases op with
  | add d =>
    cases hv : (rustTrim d).data.isEmpty with
    | true => simp [runOp, add_task_invalid s d b hv] at h
    | false =>
      cases b with
      | true =>
        rw [runOp, add_task_valid_true s d hv] at h ⊢
        simp at h
        exact ⟨h.symm, rfl⟩
      | false => simp [runOp, add_task_valid_false s d hv] at h
  | complete k =>
    rcases hl : List.lookup k s.tasks with _ | t
    · simp [runOp, complete_task_absent s k b hl] at h
    · cases b with
      | true => simp [runOp, complete_task_present s k t true hl, TodoList.save] at h
      | false => simp [runOp, complete_task_present s k t false hl, TodoList.save] at h
  | delete k =>
    rcases hl : List.lookup k s.tasks with _ | t
    · simp [runOp, delete_task_absent s k b hl] at h
    · cases b with
      | true =>
        simp [runOp, delete_task_present s k true (by simp [hl]),
          TodoList.save] at h
      | false =>
        simp [runOp, delete_task_present s k false (by simp [hl]),
          TodoList.save] at h
  | list => simp [runOp] at h

theorem addedIds_lb (s : TodoList) (l : List (Op × Bool)) :
    ∀ i ∈ addedIds (runOps s l).2, s.next_id ≤ i := by
  induction l generalizing s with
  | nil =>
    intro i hi
    simp [runOps, addedIds] at hi
  | cons ob l ih =>
    intro i hi
    obtain ⟨op, b⟩ := ob
    rw [runOps] at hi
    rcases hr : (runOp s (op, b)).2 with j | _ | ts | e
    all_goals rw [hr] at hi
    · rw [addedIds] at hi
      rcases List.mem_cons.mp hi with rfl | hi'
      · exact le_of_eq (runOp_addedId hr).1.symm
      · exact le_trans (next_id_le_runOp s (op, b))
          (ih (runOp s (op, b)).1 i hi')
    all_goals
      rw [addedIds] at hi
      exact le_trans (next_id_le_runOp s (op, b))
        (ih (runOp s (op, b)).1 i hi)

theorem addedIds_pairwise (s : TodoList) (l : List (Op × Bool)) :
    (addedIds (runOps s l).2).Pairwise (· < ·) := by
  induction l generalizing s with
  | nil => simp [runOps, addedIds]
  | cons ob l ih =>
    obtain ⟨op, b⟩ := ob
    rw [runOps]
    rcases hr : (runOp s (op, b)).2 with j | _ | ts | e
    · dsimp only
      rw [addedIds]
      refine List.Pairwise.cons ?_ (ih (runOp s (op, b)).1)
      intro j' hj'
      have h1 : (runOp s (op, b)).1.next_id ≤ j' :=
        addedIds_lb (runOp s (op, b)).1 l j' hj'
      have h2 := runOp_addedId hr
      omega
    all_goals
      dsimp only
      rw [addedIds]
      exact ih (runOp s (op, b)).1

theorem TasksInv_runOp {s : TodoList} (ob : Op × Bool) (hInv : TasksInv s) :
    TasksInv (runOp s ob).1 := by
  obtain ⟨op, b⟩ := ob
  cases op with
  | add d =>
    cases hv : (rustTrim d).data.isEmpty with
    | true => simpa [runOp, add_task_invalid s d b hv] using hInv
    | false =>
      have key : ∀ p ∈ insertTask s.tasks s.next_id ⟨⟨s.next_id⟩, ⟨d⟩, false⟩,
          p.2.id.val = p.1 ∧ p.1 < s.next_id + 1 := by
        intro p hp
        rcases mem_insertTask hp with hp | hp
        · rcases hInv p hp with ⟨h1, h2⟩
          exact ⟨h1, Nat.lt_succ_of_lt h2⟩
        · subst hp
          exact ⟨rfl, Nat.lt_succ_self _⟩
      cases b with
      | true =>
        simp only [runOp, add_task_valid_true s d hv]
        exact fun p hp => key p hp
      | false =>
        simp only [runOp, add_task_valid_false s d hv]
        exact fun p hp => key p hp
  | complete k =>
    rcases hl : List.lookup k s.tasks with _ | t
    · simpa [runOp, complete_task_absent s k b hl] using hInv
    · have key : ∀ p ∈ markCompleted s.tasks k,
          p.2.id.val = p.1 ∧ p.1 < s.next_id := by
        intro p hp
        rcases mem_markCompleted hp with ⟨q, hq, h1, h2⟩
        rcases hInv q hq with ⟨h3, h4⟩
        refine ⟨by rw [h2, h3, h1], ?_⟩
        rw [h1]
        exact h4
      cases b with
      | true =>
        simp only [runOp, complete_task_present s k t true hl, TodoList.save,
          if_pos]
        exact fun p hp => key p hp
      | false =>
        simp only [runOp, complete_task_present s k t false hl, TodoList.save]
        exact fun p hp => key p hp
  | delete k =>
    rcases hl : List.lookup k s.tasks with _ | t
    · simpa [runOp, delete_task_absent s k b hl] using hInv
    · have key : ∀ p ∈ removeTask s.tasks k,
          p.2.id.val = p.1 ∧ p.1 < s.next_id :=
        fun p hp => hInv p (mem_removeTask hp)
      cases b with
      | true =>
        simp only [runOp, delete_task_present s k true (by simp [hl]),
          TodoList.save, if_pos]
        exact fun p hp => key p hp
      | false =>
        simp only [runOp, delete_task_present s k false (by simp [hl]),
          TodoList.save]
        exact fun p hp => key p hp
  | list => simpa [runOp] using hInv

theorem TasksInv_runOps {s : TodoList} (l : List (Op × Bool))
    (hInv : TasksInv s) : TasksInv (runOps s l).1 := by
  induction l generalizing s with
  | nil => exact hInv
  | cons ob l ih => exact ih (TasksInv_runOp ob hInv)

theorem runOp_delete_done {s : TodoList} {k : Nat} {b : Bool}
    (h : (runOp s (.delete k, b)).2 = .done) :
    (List.lookup k s.tasks).isSome = true ∧
    (runOp s (.delete k, b)).1.next_id = s.next_id := by
  rcases hl : List.lookup k s.tasks with _ | t
  · simp [runOp, delete_task_absent s k b hl] at h
  · cases b with
    | true =>
      refine ⟨by simp [hl], ?_⟩
      simp [runOp, delete_task_present s k true (by simp [hl]), TodoList.save]
    | false =>
      simp [runOp, delete_task_present s k false (by simp [hl]),
        TodoList.save] at h

theorem completed_monotone_runOp {s : TodoList} (hInv : TasksInv s)
    (hnd : NodupKeys s.tasks) (op : Op) (b : Bool) {j : Nat} {u u' : Task}
    (hu : List.lookup j s.tasks = some u) (hc : u.completed = true)
    (hu' : List.lookup j (runOp s (op, b)).1.tasks = some u') :
    u'.completed = true := by
  cases op with
  | add d =>
    cases hv : (rustTrim d).data.isEmpty with
    | true =>
      simp only [runOp, add_task_invalid s d b hv] at hu'
      rw [hu] at hu'
      injection hu' with h
      rw [← h]
      exact hc
    | false =>
      have hj : j ≠ s.next_id := by
        intro hj
        have h2 := (hInv _ (lookup_some_mem hu)).2
        omega
      cases b with
      | true =>
        simp only [runOp, add_task_valid_true s d hv] at hu'
        rw [lookup_insertTask_ne s.tasks s.next_id j _ hj, hu] at hu'
        injection hu' with h
        rw [← h]
        exact hc
      | false =>
        simp only [runOp, add_task_valid_false s d hv] at hu'
        rw [lookup_insertTask_ne s.tasks s.next_id j _ hj, hu] at hu'
        injection hu' with h
        rw [← h]
        exact hc
  | complete k =>
    rcases hl : List.lookup k s.tasks with _ | t
    · simp only [runOp, complete_task_absent s k b hl] at hu'
      rw [hu] at hu'
      injection hu' with h
      rw [← h]
      exact hc
    · have key : List.lookup j (markCompleted s.tasks k) = some u' →
          u'.completed = true := by
        intro hm
        rw [lookup_markCompleted, hu] at hm
        simp only [Option.map_some'] at hm
        by_cases hjk : j = k
        · rw [if_pos hjk] at hm
          injection hm with h
          rw [← h]
        · rw [if_neg hjk] at hm
          injection hm with h
          rw [← h]
          exact hc
      cases b with
      | true =>
        simp only [runOp, complete_task_present s k t true hl,
          TodoList.save, if_pos] at hu'
        exact key hu'
      | false =>
        simp only [runOp, complete_task_present s k t false hl,
          TodoList.save] at hu'
        exact key hu'
  | delete k =>
    rcases hl : List.lookup k s.tasks with _ | t
    · simp only [runOp, delete_task_absent s k b hl] at hu'
      rw [hu] at hu'
      injection hu' with h
      rw [← h]
      exact hc
    · have key : List.lookup j (removeTask s.tasks k) = some u' →
          u'.completed = true := by
        intro hm
        have h1 := lookup_removeTask_some hnd hm
        rw [hu] at h1
        injection h1 with h
        rw [← h]
        exact hc
      cases b with
      | true =>
        simp only [runOp, delete_task_present s k true (by simp [hl]),
          TodoList.save, if_pos] at hu'
        exact key hu'
      | false =>
        simp only [runOp, delete_task_present s k false (by simp [hl]),
          TodoList.save] at hu'
        exact key hu'
  | list =>
    simp only [runOp] at hu'
    rw [hu] at hu'
    injection hu' with h
    rw [← h]
    exact hc

/-! ## The claims -/

/-- C1, counterexample: the claim that a failed persistence save leaves the
in-memory task collection unchanged is false.  On the empty store,
`add_task` with a failing file write returns the storage error, yet the
collection has gained the new task (the source inserts and increments
before `self.save()?`). -/
theorem add_save_failure_mutates_cex :
    ((⟨[], 1, none⟩ : TodoList).add_task "buy milk" false).2 =
      .error .storageFail ∧
    ((⟨[], 1, none⟩ : TodoList).add_task "buy milk" false).1.tasks ≠
      ([] : TaskMap) := by
  constructor
  · rfl
  · decide

/-- C1, amended: when the save step of `add_task`, `complete_task` or
`delete_task` fails, the operation reports exactly one error (the
storage failure, propagated, never swallowed) and the persisted content is
untouched, but the in-memory mutation is NOT rolled back: the collection
and the next-id counter are exactly as they would be after the successful
run of the same operation. -/
theorem save_failure_single_error_keeps_mutation (s : TodoList) (d : String)
    (k : Nat) (hd : (rustTrim d).data.isEmpty = false)
    (hk : (List.lookup k s.tasks).isSome = true) :
    ((s.add_task d false).2 = .error .storageFail ∧
     (s.add_task d false).1.tasks = (s.add_task d true).1.tasks ∧
     (s.add_task d false).1.next_id = (s.add_task d true).1.next_id ∧
     (s.add_task d false).1.stored = s.stored) ∧
    ((s.complete_task k false).2 = .error .storageFail ∧
     (s.complete_task k false).1.tasks = (s.complete_task k true).1.tasks ∧
     (s.complete_task k false).1.next_id = s.next_id ∧
     (s.complete_task k false).1.stored = s.stored) ∧
    ((s.delete_task k false).2 = .error .storageFail ∧
     (s.delete_task k false).1.tasks = (s.delete_task k true).1.tasks ∧
     (s.delete_task k false).1.next_id = s.next_id ∧
     (s.delete_task k false).1.stored = s.stored) := by
  obtain ⟨t, ht⟩ := Option.isSome_iff_exists.mp hk
  refine ⟨?_, ?_, ?_⟩
  · rw [add_task_valid_false s d hd, add_task_valid_true s d hd]
    exact ⟨rfl, rfl, rfl, rfl⟩
  · rw [complete_task_present s k t false ht,
      complete_task_present s k t true ht]
    exact ⟨rfl, rfl, rfl, rfl⟩
  · rw [delete_task_present s k false hk, delete_task_present s k true hk]
    exact ⟨rfl, rfl, rfl, rfl⟩

/-- Witness for C1 at a concrete store: failing add on a one-task store. -/
theorem save_failure_single_error_keeps_mutation_witness :
    ((⟨[(1, ⟨⟨1⟩, ⟨"a"⟩, false⟩)], 2, none⟩ : TodoList).add_task "b" false).2 =
      .error .storageFail ∧
    ((⟨[(1, ⟨⟨1⟩, ⟨"a"⟩, false⟩)], 2, none⟩ : TodoList).add_task "b" false).1.tasks =
      ((⟨[(1, ⟨⟨1⟩, ⟨"a"⟩, false⟩)], 2, none⟩ : TodoList).add_task "b" true).1.tasks ∧
    ((⟨[(1, ⟨⟨1⟩, ⟨"a"⟩, false⟩)], 2, none⟩ : TodoList).add_task "b" false).1.next_id =
      ((⟨[(1, ⟨⟨1⟩, ⟨"a"⟩, false⟩)], 2, none⟩ : TodoList).add_task "b" true).1.next_id ∧
    ((⟨[(1, ⟨⟨1⟩, ⟨"a"⟩, false⟩)], 2, none⟩ : TodoList).add_task "b" false).1.stored =
      (⟨[(1, ⟨⟨1⟩, ⟨"a"⟩, false⟩)], 2, none⟩ : TodoList).stored :=
  (save_failure_single_error_keeps_mutation
    ⟨[(1, ⟨⟨1⟩, ⟨"a"⟩, false⟩)], 2, none⟩ "b" 1 (by decide) (by decide)).1

/-- C2: `FileStorage.save` followed by `FileStorage.load` reproduces the
task collection identically: the same bindings, hence the same ids and,
for each id, the same description text and completed flag. -/
theorem save_load_roundtrip (m : TaskMap) :
    FileStorage.load (.content (FileStorage.save m)) = .ok m := by
  simp [FileStorage.load, FileStorage.save, tasksToJson, jsonToTasks,
    entriesToTasks_tasksToJson]

/-- C3: along every run from a store satisfying the structural invariant,
the ids returned by successful adds are strictly increasing, and after a
successful `delete k` no later successful add ever returns `k` again. -/
theorem add_ids_monotone_no_reuse (s : TodoList) (hInv : TasksInv s)
    (l ops1 ops2 : List (Op × Bool)) (k : Nat) (b : Bool)
    (hdel : (runOp (runOps s ops1).1 (.delete k, b)).2 = .done) :
    (addedIds (runOps s l).2).Pairwise (· < ·) ∧
    (∀ i ∈ addedIds
        (runOps (runOp (runOps s ops1).1 (.delete k, b)).1 ops2).2, i ≠ k) := by
  refine ⟨addedIds_pairwise s l, ?_⟩
  intro i hi
  have hInv1 : TasksInv (runOps s ops1).1 := TasksInv_runOps ops1 hInv
  obtain ⟨hk, hnid⟩ := runOp_delete_done hdel
  obtain ⟨t, ht⟩ := Option.isSome_iff_exists.mp hk
  have hklt : k < (runOps s ops1).1.next_id := (hInv1 _ (lookup_some_mem ht)).2
  have hge : (runOp (runOps s ops1).1 (.delete k, b)).1.next_id ≤ i :=
    addedIds_lb _ ops2 i hi
  omega

/-- Witness for C3: add, delete the id, add again on the empty store. -/
theorem add_ids_monotone_no_reuse_witness :
    (addedIds (runOps (⟨[], 1, none⟩ : TodoList)
        [(.add "a", true), (.delete 1, true), (.add "b", true)]).2).Pairwise
      (· < ·) ∧
    (∀ i ∈ addedIds
        (runOps (runOp (runOps (⟨[], 1, none⟩ : TodoList)
            [(.add "a", true)]).1 (.delete 1, true)).1
          [(.add "b", true)]).2, i ≠ 1) :=
  add_ids_monotone_no_reuse ⟨[], 1, none⟩ (by decide)
    [(.add "a", true), (.delete 1, true), (.add "b", true)]
    [(.add "a", true)] [(.add "b", true)] 1 true (by decide)

/-- C4: initialisation loads the persisted collection (empty, not an
error, on a missing file), derives the next-id counter as max id + 1 (1
for the empty collection), and fails with the storage error exactly on a
non-not-found read failure or a deserialisation failure. -/
theorem initialization_spec (j : Json) :
    TodoList.new .notFound = .ok ⟨[], 1, none⟩ ∧
    TodoList.new .ioError = .error .storageFail ∧
    TodoList.new (.content j) =
      (match jsonToTasks j with
       | some m =>
         .ok ⟨m,
           (match (m.map Prod.fst).max? with
            | none => 1
            | some x => x + 1),
           some j⟩
       | none => .error .storageFail) := by
  refine ⟨rfl, rfl, ?_⟩
  cases hj : jsonToTasks j with
  | none => simp [TodoList.new, FileStorage.load, hj]
  | some m => simp [TodoList.new, FileStorage.load, hj]

/-- C5: adding a description that trims to empty fails with the
validation error and returns the store untouched (no task, no counter
change, no save: the result does not depend on the save outcome and the
stored content is unchanged). -/
theorem add_empty_description_rejected (s : TodoList) (d : String) (b : Bool)
    (h : (rustTrim d).data.isEmpty = true) :
    s.add_task d b = (s, .error .invalidInput) :=
  add_task_invalid s d b h

/-- Witness for C5: a description of spaces around a no-break space
(U+00A0), blank under Unicode `White_Space` trimming, on the empty
store. -/
theorem add_empty_description_rejected_witness :
    (⟨[], 1, none⟩ : TodoList).add_task " \u00A0 " true =
      ((⟨[], 1, none⟩ : TodoList), .error .invalidInput) :=
  add_empty_description_rejected ⟨[], 1, none⟩ " \u00A0 " true (by decide)

/-- C6: completing or deleting an id that is not in the collection fails
with the not-found error and leaves the whole store (collection, counter,
persisted content) unchanged, whatever the save outcome would have been:
no save happens. -/
theorem missing_id_not_found (s : TodoList) (k : Nat) (b : Bool)
    (h : List.lookup k s.tasks = none) :
    s.complete_task k b = (s, .error .notFound) ∧
    s.delete_task k b = (s, .error .notFound) :=
  ⟨complete_task_absent s k b h, delete_task_absent s k b h⟩

/-- Witness for C6: id 999 on a one-task store. -/
theorem missing_id_not_found_witness :
    (⟨[(1, ⟨⟨1⟩, ⟨"a"⟩, false⟩)], 2, none⟩ : TodoList).complete_task 999 true =
      ((⟨[(1, ⟨⟨1⟩, ⟨"a"⟩, false⟩)], 2, none⟩ : TodoList),
       .error .notFound) ∧
    (⟨[(1, ⟨⟨1⟩, ⟨"a"⟩, false⟩)], 2, none⟩ : TodoList).delete_task 999 true =
      ((⟨[(1, ⟨⟨1⟩, ⟨"a"⟩, false⟩)], 2, none⟩ : TodoList),
       .error .notFound) :=
  missing_id_not_found ⟨[(1, ⟨⟨1⟩, ⟨"a"⟩, false⟩)], 2, none⟩ 999 true
    (by decide)

/-- C7: `list_tasks` returns all tasks of the collection (a permutation of
its values) sorted strictly ascending by id, the empty sequence on the
empty collection, never fails, and the `list` operation leaves the store
state untouched. -/
theorem list_tasks_spec (s : TodoList) (b : Bool) (hInv : TasksInv s)
    (hnd : NodupKeys s.tasks) :
    s.list_tasks.Pairwise (fun a c => a.id.val < c.id.val) ∧
    s.list_tasks.Perm (s.tasks.map Prod.snd) ∧
    (s.tasks = [] → s.list_tasks = []) ∧
    runOp s (.list, b) = (s, .listing s.list_tasks) := by
  have hperm : s.list_tasks.Perm (s.tasks.map Prod.snd) :=
    List.mergeSort_perm _ _
  have hle : s.list_tasks.Pairwise (fun a c => a.id.val ≤ c.id.val) := by
    have h := @List.sorted_mergeSort Task
      (fun a c : Task => decide (a.id.val ≤ c.id.val))
      (fun a b c h1 h2 => by
        simp at h1 h2 ⊢
        omega)
      (fun a b => by
        simp
        omega)
      (s.tasks.map Prod.snd)
    exact h.imp (fun hab => by simpa using hab)
  have hids : (s.tasks.map Prod.snd).map (fun t => t.id.val) =
      s.tasks.map Prod.fst := by
    rw [List.map_map]
    exact List.map_congr_left (fun p hp => (hInv p hp).1)
  have hnd2 : (s.list_tasks.map (fun t => t.id.val)).Nodup := by
    refine (List.Perm.nodup_iff (List.Perm.map _ hperm)).mpr ?_
    rw [hids]
    exact hnd
  have hne : s.list_tasks.Pairwise (fun a c => a.id.val ≠ c.id.val) :=
    List.pairwise_map.mp hnd2
  refine ⟨?_, hperm, ?_, rfl⟩
  · exact (hle.and hne).imp (fun h => lt_of_le_of_ne h.1 h.2)
  · intro h
    unfold TodoList.list_tasks
    rw [h]
    simp

/-- Witness for C7: a store holding ids 3, 1, 2 in scrambled order. -/
theorem list_tasks_spec_witness :
    (⟨[(3, ⟨⟨3⟩, ⟨"c"⟩, false⟩), (1, ⟨⟨1⟩, ⟨"a"⟩, false⟩),
       (2, ⟨⟨2⟩, ⟨"b"⟩, true⟩)], 4, none⟩ : TodoList).list_tasks.Pairwise
      (fun a c => a.id.val < c.id.val) :=
  (list_tasks_spec
    ⟨[(3, ⟨⟨3⟩, ⟨"c"⟩, false⟩), (1, ⟨⟨1⟩, ⟨"a"⟩, false⟩),
      (2, ⟨⟨2⟩, ⟨"b"⟩, true⟩)], 4, none⟩ true (by decide) (by decide)).1

/-- C8: completing a present id succeeds and sets its completed flag;
a second completion of the same id succeeds again and leaves the flag
true (idempotent); and no operation ever turns a completed flag from
true back to false. -/
theorem complete_idempotent_monotone (s : TodoList) (k : Nat) (t : Task)
    (hInv : TasksInv s) (hnd : NodupKeys s.tasks)
    (h : List.lookup k s.tasks = some t) :
    (s.complete_task k true).2 = .ok () ∧
    List.lookup k (s.complete_task k true).1.tasks =
      some { t with completed := true } ∧
    ((s.complete_task k true).1.complete_task k true).2 = .ok () ∧
    List.lookup k ((s.complete_task k true).1.complete_task k true).1.tasks =
      some { t with completed := true } ∧
    (∀ (op : Op) (b : Bool) (j : Nat) (u u' : Task),
      List.lookup j s.tasks = some u → u.completed = true →
      List.lookup j (runOp s (op, b)).1.tasks = some u' →
      u'.completed = true) := by
  have hl1 : List.lookup k (s.complete_task k true).1.tasks =
      some { t with completed := true } := by
    rw [complete_task_present s k t true h, save_fst_tasks,
      lookup_markCompleted, h]
    simp
  refine ⟨?_, hl1, ?_, ?_, ?_⟩
  · rw [complete_task_present s k t true h]
    rfl
  · rw [complete_task_present _ k _ true hl1]
    rfl
  · rw [complete_task_present _ k _ true hl1, save_fst_tasks,
      lookup_markCompleted, hl1]
    simp
  · exact fun op b j u u' hu hc hu' =>
      completed_monotone_runOp hInv hnd op b hu hc hu'

/-- Witness for C8: completing the only task of a one-task store. -/
theorem complete_idempotent_monotone_witness :
    ((⟨[(1, ⟨⟨1⟩, ⟨"a"⟩, false⟩)], 2, none⟩ : TodoList).complete_task
      1 true).2 = .ok () :=
  (complete_idempotent_monotone ⟨[(1, ⟨⟨1⟩, ⟨"a"⟩, false⟩)], 2, none⟩ 1
    ⟨⟨1⟩, ⟨"a"⟩, false⟩ (by decide) (by decide) (by decide)).1

/-- C9: a successful add stores the supplied description verbatim,
whitespace included: the task created under the fresh id carries exactly
the original string (trimming is only used for the emptiness check). -/
theorem add_stores_description_verbatim (s : TodoList) (d : String)
    (h : (rustTrim d).data.isEmpty = false) :
    (s.add_task d true).2 = .ok s.next_id ∧
    List.lookup s.next_id (s.add_task d true).1.tasks =
      some ⟨⟨s.next_id⟩, ⟨d⟩, false⟩ := by
  rw [add_task_valid_true s d h]
  exact ⟨rfl, lookup_insertTask_self s.tasks s.next_id _⟩

/-- Witness for C9: a description with leading and trailing whitespace. -/
theorem add_stores_description_verbatim_witness :
    ((⟨[], 1, none⟩ : TodoList).add_task "  hi  " true).2 = .ok 1 ∧
    List.lookup 1 ((⟨[], 1, none⟩ : TodoList).add_task "  hi  " true).1.tasks =
      some ⟨⟨1⟩, ⟨"  hi  "⟩, false⟩ :=
  add_stores_description_verbatim ⟨[], 1, none⟩ "  hi  " (by decide)

/-- C10: every operation, run from a state in which each binding's key
equals the id stored in its task and every key is below the next-id
counter, produces a state satisfying the same invariant. -/
theorem store_ops_preserve_invariant (s : TodoList) (ob : Op × Bool)
    (hInv : TasksInv s) : TasksInv (runOp s ob).1 :=
  TasksInv_runOp ob hInv

/-- Witness for C10: adding to a one-task store. -/
theorem store_ops_preserve_invariant_witness :
    TasksInv (runOp (⟨[(1, ⟨⟨1⟩, ⟨"a"⟩, false⟩)], 2, none⟩ : TodoList)
      (.add "x", true)).1 :=
  store_ops_preserve_invariant ⟨[(1, ⟨⟨1⟩, ⟨"a"⟩, false⟩)], 2, none⟩
    (.add "x", true) (by decide)

end Todo
